import Mathlib

set_option maxHeartbeats 1000000

/- Shallow embedding of src/nitro_redeemer.py (NitroSniper).
   Response bodies and code text are modelled as List Char; Python substring
   containment, str.replace and the compiled regex are modelled by executable
   functions below.  Times (time.time(), retry_after) are modelled as Int,
   so the appended latency round((end - start) * 1000) of line 144 is exactly
   (end - start) * 1000 (Python round is the identity on whole numbers). -/

/- Enum Responses (lines 8-41 of the source). -/
inductive Responses where
  | RATE_LIMITED
  | INVALID_GIFT
  | ALREADY_CLAIMED
  | NO_PAYMENT_SOURCE
  | ALREADY_PURCHASED
  | ACCESS_DENIED
  | NOT_VERIFIED
  | CLAIMED
  | IN_CACHE
deriving DecidableEq

/- Python `p in s` substring test, on List Char.  litPre p s means p is a
   prefix of s; containsSub p s means p occurs contiguously in s. -/
def litPre : List Char → List Char → Bool
  | [], _ => true
  | _ :: _, [] => false
  | c :: p, d :: s => if c = d then litPre p s else false

def containsSub (p : List Char) : List Char → Bool
  | [] => litPre p []
  | c :: s => litPre p (c :: s) || containsSub p (s)

/- ErrorHandler.error_responses (lines 53-69): the fixed signature table, in
   Python dict insertion order.  Adjacent Python string literals concatenate. -/
def frag10038 : List Char :=
  ("\x7b\"message\": \"Unknown Gift Code\", \"code\": 10038\x7d").toList

def error_responses : List (List Char × Responses) :=
  [(frag10038, Responses.INVALID_GIFT),
   (("\x7b\"message\": \"This gift has been redeemed already.\", \"code\": 50050\x7d").toList,
      Responses.ALREADY_CLAIMED),
   (("\x7b\"message\": \"Payment source required to redeem gift.\", \"code\": 50070\x7d").toList,
      Responses.NO_PAYMENT_SOURCE),
   (("\x7b\"message\": \"Already purchased\", \"code\": 100011\x7d").toList,
      Responses.ALREADY_PURCHASED),
   (("\x7b\"message\": \"You need to verify your account in order to perform this action.\", \"code\": 40002\x7d").toList,
      Responses.NOT_VERIFIED),
   (("You are being rate limited").toList, Responses.RATE_LIMITED),
   (("Access denied").toList, Responses.ACCESS_DENIED)]

/- ErrorHandler.handle_errors (lines 71-76): first table entry occurring as a
   substring of the response text wins; otherwise CLAIMED. -/
def handleLoop : List (List Char × Responses) → List Char → Responses
  | [], _ => Responses.CLAIMED
  | (e, r) :: rest, text => if containsSub e text then r else handleLoop rest text

def handle_errors (text : List Char) : Responses :=
  handleLoop error_responses text

example : handle_errors (("hello").toList) = Responses.CLAIMED := by decide
example : handle_errors (("xx You are being rate limited yy").toList)
    = Responses.RATE_LIMITED := by decide
example : handle_errors (frag10038) = Responses.INVALID_GIFT := by decide

/- Code extractor (lines 104-105, 177-190).  The compiled regex is
   (discord.gift|discordapp.com/gifts|discord.com/gifts)/\w{16,24}
   The dots in the link strings are NOT escaped, so in the regex each dot
   matches any single character except a newline.  PatChar models one regex
   atom of the alternative prefixes. -/
inductive PatChar where
  | exact (c : Char)
  | dot
deriving DecidableEq

def patMatchChar : PatChar → Char → Bool
  | PatChar.exact a, c => if a = c then true else false
  | PatChar.dot, c => if c = '\n' then false else true

/- Compiling a link string into the regex turns each '.' into the wildcard. -/
def toPat (s : List Char) : List PatChar :=
  s.map (fun c => if c = '.' then PatChar.dot else PatChar.exact c)

/- Python \w on the ASCII inputs of this development: [A-Za-z0-9_]. -/
def isWordChar (c : Char) : Bool := c.isAlphanum || c = '_'

/- Match a literal-with-wildcards pattern at the front of s; on success
   returns (consumed characters, remaining characters). -/
def matchLit : List PatChar → List Char → Option (List Char × List Char)
  | [], s => some ([], s)
  | _ :: _, [] => none
  | p :: ps, c :: s =>
    if patMatchChar p c then
      match matchLit ps s with
      | none => none
      | some (cs, r) => some (c :: cs, r)
    else none

/- Greedy \w{0,n}: take up to n leading word characters. -/
def takeWords : Nat → List Char → List Char × List Char
  | 0, s => ([], s)
  | _ + 1, [] => ([], [])
  | n + 1, c :: s =>
    if isWordChar c then
      ((c :: (takeWords n s).1), (takeWords n s).2)
    else ([], c :: s)

/- One alternative of the regex: link-with-wildcard-dots, then '/', then
   16 to 24 word characters (greedy, nothing follows the quantifier). -/
def tryAlt (link : String) (s : List Char) : Option (List Char × List Char) :=
  match matchLit (toPat (link.toList) ++ [PatChar.exact '/']) s with
  | none => none
  | some (c1, r1) =>
    if 16 ≤ (takeWords 24 r1).1.length then
      some (c1 ++ (takeWords 24 r1).1, (takeWords 24 r1).2)
    else none

/- The whole pattern at one position: alternatives tried left to right, as in
   Python alternation. -/
def matchGift (s : List Char) : Option (List Char × List Char) :=
  match tryAlt ("discord.gift") s with
  | some m => some m
  | none =>
    match tryAlt ("discordapp.com/gifts") s with
    | some m => some m
    | none => tryAlt ("discord.com/gifts") s

/- re.finditer: scan left to right, non-overlapping, resuming after each
   match; fuel bounds the scan by the text length (every step consumes at
   least one character). -/
def scanGift : Nat → List Char → List (List Char)
  | 0, _ => []
  | _ + 1, [] => []
  | fuel + 1, c :: s =>
    match matchGift (c :: s) with
    | some (m, rest) => m :: scanGift fuel rest
    | none => scanGift fuel (s)

/- NitroRedeemer.links (line 104). -/
def links : List String := ["discord.gift", "discordapp.com/gifts", "discord.com/gifts"]

/- Python text.replace(old, ''), old nonempty: remove non-overlapping
   occurrences left to right. -/
def replaceAll (pat : List Char) : Nat → List Char → List Char
  | 0, s => s
  | _ + 1, [] => []
  | fuel + 1, c :: s =>
    if litPre pat (c :: s) then
      replaceAll pat fuel (List.drop pat.length (c :: s))
    else c :: replaceAll pat fuel (s)

/- NitroRedeemer.remove_links (lines 177-181): for each link, replace the
   literal link + '/' with the empty string. -/
def remove_links (s : List Char) : List Char :=
  List.foldl (fun acc link => replaceAll ((link ++ "/").toList) acc.length acc) s links

/- NitroRedeemer.find_codes (lines 183-191). -/
def find_codes (text : List Char) : List (List Char) :=
  (scanGift text.length text).map remove_links

example : find_codes (("check discord.gift/AbCdEf1234567890 out").toList)
    = [("AbCdEf1234567890").toList] := by decide
example : find_codes (("check discord.gift/AbCdEf123456789 out").toList) = [] := by decide
example : find_codes (("discord0gift/AbCdEf1234567890").toList)
    = [("discord0gift/AbCdEf1234567890").toList] := by decide
example : find_codes (("discord.com/gifts/AbCdEf1234567890xxxxxxxxXYZ").toList)
    = [("AbCdEf1234567890xxxxxxxx").toList] := by decide

/- NitroRedeemer state (lines 100-108).  The Python dicts tokens and cache
   are modelled as insertion-ordered association lists with unique keys;
   time.time() values and retry_after are modelled as Int (the claims under
   study involve only whole-second times, and the comparisons of lines 124
   and 171-172 are the same formulas over any ordered field). -/
structure RateState where
  rate_timestamp : Int
  rate_delay : Int
deriving DecidableEq

structure EngineState where
  tokens : List (String × Option String)
  cache : List (String × Responses)
  rate_limits : RateState
  data : List Int
deriving DecidableEq

/- The ambient world of one loop iteration: the four time.time() readings the
   iteration can take (line 124 check, line 140 start, line 144 end, line 171
   rate timestamp), the HTTP response body text (await request.text()), and
   the retry_after field of the body parsed as JSON (await request.json()). -/
structure IterEnv where
  tCheck : Int
  tStart : Int
  tEnd : Int
  body : List Char
  retryAfter : Int
  tRate : Int

/- Association-list operations mirroring Python dict semantics:
   membership test, lookup, update-or-append assignment, and del. -/
def containsKey {α : Type} (m : List (String × α)) (k : String) : Bool :=
  m.any (fun p => if p.1 = k then true else false)

def lookupA {α : Type} : List (String × α) → String → Option α
  | [], _ => none
  | (k2, v) :: rest, k => if k2 = k then some v else lookupA rest k

def insertA {α : Type} (m : List (String × α)) (k : String) (v : α) : List (String × α) :=
  if containsKey m k then m.map (fun p => if p.1 = k then (k, v) else p)
  else m ++ [(k, v)]

def eraseKey {α : Type} (m : List (String × α)) (k : String) : List (String × α) :=
  m.filter (fun p => if p.1 = k then false else true)

/- Python truthiness of a payment-source id: None and '' are falsy. -/
def pyFalsy : Option String → Bool
  | none => true
  | some s => s.isEmpty

/- The token loop of NitroRedeemer.redeem_code (lines 119-173), one case per
   Python statement.  Arguments: remaining snapshot of list(self.tokens)
   (pairs captured from the dict: within one call only the current token is
   ever deleted and dict keys are unique, so the live lookup of line 120
   yields the snapshot value), env index k (incremented every iteration),
   payment_required, response, the loop variable token, the engine state and
   the ghost list of tokens used in network attempts so far. -/
def redeemLoop (env : Nat → IterEnv) (code : String) :
    List (String × Option String) → Nat → Bool → Responses → Option String →
    EngineState → List String →
    (Option String × Responses) × EngineState × List String
  | [], _, _, resp, tok, st, att => ((tok, resp), st, att)
  | (token, payment_id) :: rest, k, payment_required, resp, _, st, att =>
    if payment_required && pyFalsy payment_id then
      redeemLoop env code rest (k+1) payment_required resp (some token) st att
    else if (env k).tCheck - st.rate_limits.rate_timestamp ≤ st.rate_limits.rate_delay then
      ((some token, resp), st, att)
    else
      let response := handle_errors (env k).body
      let st1 : EngineState :=
        { st with data := st.data ++ [((env k).tEnd - (env k).tStart) * 1000],
                  cache := insertA st.cache code response }
      let att1 := att ++ [token]
      if response = Responses.ALREADY_CLAIMED then ((some token, response), st1, att1)
      else if response = Responses.CLAIMED then ((some token, response), st1, att1)
      else if response = Responses.INVALID_GIFT then ((some token, response), st1, att1)
      else if response = Responses.NO_PAYMENT_SOURCE then
        redeemLoop env code rest (k+1) true response (some token) st1 att1
      else if response = Responses.ALREADY_PURCHASED then
        redeemLoop env code rest (k+1) payment_required response (some token) st1 att1
      else
        let st2 : EngineState :=
          if response = Responses.NOT_VERIFIED then
            { st1 with tokens := eraseKey st1.tokens token }
          else st1
        if response = Responses.RATE_LIMITED then
          ((some token, response),
           { st2 with rate_limits :=
               { rate_timestamp := (env k).tRate, rate_delay := (env k).retryAfter } }, att1)
        else
          redeemLoop env code rest (k+1) payment_required response (some token) st2 att1

/- NitroRedeemer.redeem_code (lines 110-175).  Returns the Python return
   value (token, response) together with the final engine state and the
   ghost list of tokens used in network attempts, in order. -/
def redeem_code (env : Nat → IterEnv) (st : EngineState) (code : String) :
    (Option String × Responses) × EngineState × List String :=
  if containsKey st.cache code then ((none, Responses.IN_CACHE), st, [])
  else
    let st0 : EngineState :=
      { st with cache := insertA st.cache code Responses.RATE_LIMITED }
    redeemLoop env code st0.tokens 0 false Responses.RATE_LIMITED none st0 []

def envQuiet : Nat → IterEnv :=
  fun _ => { tCheck := 100, tStart := 100, tEnd := 101, body := [],
             retryAfter := 0, tRate := 101 }

def stCached : EngineState :=
  { tokens := [("t1", some ("p1"))], cache := [("c", Responses.CLAIMED)],
    rate_limits := { rate_timestamp := 0, rate_delay := 0 }, data := [] }

example : redeem_code envQuiet stCached ("c") = ((none, Responses.IN_CACHE), stCached, []) := by
  decide

def stTwoTok : EngineState :=
  { tokens := [("t1", some ("p1")), ("t2", none)], cache := [],
    rate_limits := { rate_timestamp := 0, rate_delay := 0 }, data := [] }

def envRL5 : Nat → IterEnv :=
  fun _ => { tCheck := 100, tStart := 100, tEnd := 101,
             body := ("You are being rate limited").toList,
             retryAfter := 5, tRate := 101 }

example : redeem_code envRL5 stTwoTok ("c") =
    ((some ("t1"), Responses.RATE_LIMITED),
     { tokens := [("t1", some ("p1")), ("t2", none)],
       cache := [("c", Responses.RATE_LIMITED)],
       rate_limits := { rate_timestamp := 101, rate_delay := 5 },
       data := [1000] }, [("t1")]) := by decide

/- Helper lemmas about the substring test. -/
theorem litPre_append_self : ∀ (p b : List Char), litPre p (p ++ b) = true
  | [], _ => rfl
  | c :: p, b => by simp [litPre, litPre_append_self p b]

theorem containsSub_self_append (p b : List Char) : containsSub p (p ++ b) = true := by
  cases hpb : p ++ b with
  | nil =>
    have hp : p = [] := by
      cases p with
      | nil => rfl
      | cons c q => simp at hpb
    subst hp
    rfl
  | cons c s =>
    simp only [containsSub]
    rw [← hpb]
    simp [litPre_append_self]

theorem containsSub_append : ∀ (a p b : List Char), containsSub p (a ++ (p ++ b)) = true := by
  intro a p b
  induction a with
  | nil => simpa using containsSub_self_append p b
  | cons c a ih => simp [containsSub, ih]

theorem litPre_mem : ∀ (p s : List Char), litPre p s = true → ∀ c ∈ p, c ∈ s
  | [], _, _, c, hc => by simp at hc
  | a :: p, [], h, c, hc => by simp [litPre] at h
  | a :: p, d :: s, h, c, hc => by
    simp only [litPre] at h
    by_cases had : a = d
    · rw [if_pos had] at h
      rcases List.mem_cons.mp hc with h1 | h1
      · subst h1; rw [had]; exact List.mem_cons_self _ _
      · exact List.mem_cons_of_mem _ (litPre_mem p s h c h1)
    · rw [if_neg had] at h; exact absurd h (by simp)

/- First-match characterisation of the classifier loop. -/
theorem handleLoop_no_match : ∀ (tbl : List (List Char × Responses)) (text : List Char),
    (∀ q ∈ tbl, containsSub q.1 text = false) → handleLoop tbl text = Responses.CLAIMED
  | [], _, _ => rfl
  | (e, r) :: rest, text, h => by
    have he : containsSub e text = false := h (e, r) (List.mem_cons_self _ _)
    simp only [handleLoop, he]
    simp only [Bool.false_eq_true, if_false]
    exact handleLoop_no_match rest text (fun q hq => h q (List.mem_cons_of_mem _ hq))

theorem handleLoop_first_match :
    ∀ (before : List (List Char × Responses)) (e : List Char) (r : Responses)
      (after : List (List Char × Responses)) (text : List Char),
      containsSub e text = true →
      (∀ q ∈ before, containsSub q.1 text = false) →
      handleLoop (before ++ (e, r) :: after) text = r
  | [], e, r, after, text, he, _ => by simp [handleLoop, he]
  | (e0, r0) :: before, e, r, after, text, he, hb => by
    have h0 : containsSub e0 text = false := hb (e0, r0) (List.mem_cons_self _ _)
    simp only [List.cons_append, handleLoop, h0, Bool.false_eq_true, if_false]
    exact handleLoop_first_match before e r after text he
      (fun q hq => hb q (List.mem_cons_of_mem _ hq))

/- Helper lemmas about the pattern matcher. -/
theorem matchLit_split : ∀ (ps : List PatChar) (s c1 r : List Char),
    matchLit ps s = some (c1, r) → s = c1 ++ r
  | [], s, c1, r, h => by
    simp only [matchLit, Option.some.injEq, Prod.mk.injEq] at h
    rw [← h.1, ← h.2]
    rfl
  | p :: ps, [], c1, r, h => by simp [matchLit] at h
  | p :: ps, c :: s, c1, r, h => by
    simp only [matchLit] at h
    by_cases hm : patMatchChar p c = true
    · rw [if_pos hm] at h
      cases hrec : matchLit ps s with
      | none => rw [hrec] at h; simp at h
      | some pr =>
        rw [hrec] at h
        cases pr with
        | mk cs rr =>
          simp only [Option.some.injEq, Prod.mk.injEq] at h
          have := matchLit_split ps s cs rr hrec
          rw [← h.1, ← h.2]
          simp [this]
    · rw [if_neg hm] at h; simp at h

theorem matchLit_slash : ∀ (ps : List PatChar) (s c1 r : List Char),
    matchLit ps s = some (c1, r) → PatChar.exact '/' ∈ ps → '/' ∈ c1
  | [], s, c1, r, h, hp => by simp at hp
  | p :: ps, [], c1, r, h, hp => by simp [matchLit] at h
  | p :: ps, c :: s, c1, r, h, hp => by
    simp only [matchLit] at h
    by_cases hm : patMatchChar p c = true
    · rw [if_pos hm] at h
      cases hrec : matchLit ps s with
      | none => rw [hrec] at h; simp at h
      | some pr =>
        rw [hrec] at h
        cases pr with
        | mk cs rr =>
          simp only [Option.some.injEq, Prod.mk.injEq] at h
          rcases List.mem_cons.mp hp with h1 | h1
          · have hc : c = '/' := by
              rw [← h1] at hm
              simp only [patMatchChar] at hm
              by_cases hcc : '/' = c
              · exact hcc.symm
              · rw [if_neg hcc] at hm; exact absurd hm (by simp)
            rw [← h.1, hc]
            exact List.mem_cons_self _ _
          · have := matchLit_slash ps s cs rr hrec h1
            rw [← h.1]
            exact List.mem_cons_of_mem _ this
    · rw [if_neg hm] at h; simp at h

theorem tryAlt_none_of_no_slash (link : String) (s : List Char)
    (hs : '/' ∉ s) : tryAlt link s = none := by
  unfold tryAlt
  cases hm : matchLit (toPat (link.toList) ++ [PatChar.exact '/']) s with
  | none => rfl
  | some pr =>
    cases pr with
    | mk c1 r1 =>
      have hsl : '/' ∈ c1 :=
        matchLit_slash _ s c1 r1 hm (List.mem_append_right _ (List.mem_singleton.mpr rfl))
      have hse : s = c1 ++ r1 := matchLit_split _ s c1 r1 hm
      exact absurd (hse ▸ List.mem_append_left _ hsl) hs

theorem matchGift_none_of_no_slash (s : List Char) (hs : '/' ∉ s) : matchGift s = none := by
  unfold matchGift
  rw [tryAlt_none_of_no_slash _ s hs, tryAlt_none_of_no_slash _ s hs,
    tryAlt_none_of_no_slash _ s hs]

theorem scanGift_no_slash : ∀ (fuel : Nat) (s : List Char), '/' ∉ s → scanGift fuel s = []
  | 0, _, _ => rfl
  | _ + 1, [], _ => rfl
  | fuel + 1, c :: s, hs => by
    simp only [scanGift]
    rw [matchGift_none_of_no_slash (c :: s) hs]
    exact scanGift_no_slash fuel s (fun h => hs (List.mem_cons_of_mem _ h))

theorem matchGift_nil : matchGift [] = none := rfl

theorem scanGift_cons_of_match (fuel : Nat) (s m rest : List Char)
    (h : matchGift s = some (m, rest)) :
    scanGift (fuel + 1) s = m :: scanGift fuel rest := by
  cases s with
  | nil => rw [matchGift_nil] at h; exact absurd h (by simp)
  | cons c s2 => simp [scanGift, h]

theorem takeWords_all : ∀ (s : List Char), (∀ c ∈ s, isWordChar c = true) →
    ∀ n : Nat, takeWords n s = (s.take n, s.drop n)
  | s, _, 0 => by simp [takeWords]
  | [], _, n + 1 => by simp [takeWords]
  | c :: s, hw, n + 1 => by
    have hc : isWordChar c = true := hw c (List.mem_cons_self _ _)
    have ih := takeWords_all s (fun d hd => hw d (List.mem_cons_of_mem _ hd)) n
    simp [takeWords, hc, ih]

theorem replaceAll_no_occ : ∀ (fuel : Nat) (pat s : List Char),
    '/' ∈ pat → '/' ∉ s → replaceAll pat fuel s = s
  | 0, _, _, _, _ => rfl
  | _ + 1, pat, [], _, _ => rfl
  | fuel + 1, pat, c :: s, hp, hs => by
    have hnp : litPre pat (c :: s) = false := by
      cases hl : litPre pat (c :: s) with
      | false => rfl
      | true => exact absurd (litPre_mem pat (c :: s) hl '/' hp) hs
    simp only [replaceAll, hnp, Bool.false_eq_true, if_false]
    rw [replaceAll_no_occ fuel pat s hp (fun h => hs (List.mem_cons_of_mem _ h))]

theorem replaceAll_strip (fuel : Nat) (pat w : List Char)
    (hp : '/' ∈ pat) (hw : '/' ∉ w) (hf : pat.length + w.length ≤ fuel) :
    replaceAll pat fuel (pat ++ w) = w := by
  cases fuel with
  | zero =>
    exfalso
    cases pat with
    | nil => simp at hp
    | cons c p => simp at hf
  | succ fuel =>
    cases pat with
    | nil => simp at hp
    | cons c p =>
      simp only [List.cons_append, replaceAll, List.append_eq]
      have hpre : litPre (c :: p) ((c :: p) ++ w) = true := litPre_append_self _ _
      simp only [List.cons_append] at hpre
      rw [hpre]
      simp only [if_true]
      have hdrop : List.drop (c :: p).length (c :: (p ++ w)) = w := by
        have h2 := List.drop_left (c :: p) w
        simp only [List.cons_append] at h2
        exact h2
      rw [hdrop]
      exact replaceAll_no_occ fuel (c :: p) w hp hw

theorem matchGift_gift (run : List Char) (hw : ∀ c ∈ run, isWordChar c = true)
    (h16 : 16 ≤ run.length) :
    matchGift (("discord.gift/").toList ++ run)
      = some (("discord.gift/").toList ++ run.take 24, run.drop 24) := by
  have hml : matchLit (toPat (("discord.gift").toList) ++ [PatChar.exact '/'])
      (("discord.gift/").toList ++ run) = some (("discord.gift/").toList, run) := rfl
  have htw := takeWords_all run hw 24
  have hlen : 16 ≤ (run.take 24).length := by
    rw [List.length_take]
    exact le_min (by norm_num) h16
  unfold matchGift tryAlt
  rw [hml]
  simp only [htw, hlen, if_pos]

theorem remove_links_gift (w : List Char) (hw : ∀ c ∈ w, isWordChar c = true) :
    remove_links (("discord.gift/").toList ++ w) = w := by
  have hnw : '/' ∉ w := fun h => absurd (hw '/' h) (by decide)
  unfold remove_links links
  simp only [List.foldl]
  have h1 : replaceAll ((("discord.gift") ++ "/").toList)
      ((("discord.gift/").toList ++ w).length) (("discord.gift/").toList ++ w) = w := by
    have he : (("discord.gift") ++ "/").toList = ("discord.gift/").toList := rfl
    rw [he]
    apply replaceAll_strip
    · decide
    · exact hnw
    · simp only [List.length_append]
      omega
  rw [h1]
  rw [replaceAll_no_occ _ _ _ (by decide) hnw, replaceAll_no_occ _ _ _ (by decide) hnw]

theorem find_codes_gift (run : List Char) (hw : ∀ c ∈ run, isWordChar c = true)
    (h16 : 16 ≤ run.length) :
    find_codes (("discord.gift/").toList ++ run) = [run.take 24] := by
  have hmg := matchGift_gift run hw h16
  have hnw : '/' ∉ run := fun h => absurd (hw '/' h) (by decide)
  unfold find_codes
  have hlen : (("discord.gift/").toList ++ run).length = (12 + run.length) + 1 := by
    simp [List.length_append]
    omega
  rw [hlen, scanGift_cons_of_match _ _ _ _ hmg]
  rw [scanGift_no_slash _ _ (fun h => hnw (List.drop_subset _ _ h))]
  simp only [List.map]
  rw [remove_links_gift _ (fun c hc => hw c (List.take_subset _ _ hc))]

/- Association-list lemmas. -/
theorem containsKey_insertA_self {α : Type} (m : List (String × α)) (k : String) (v : α) :
    containsKey (insertA m k v) k = true := by
  unfold insertA
  by_cases h : containsKey m k = true
  · rw [if_pos h]
    unfold containsKey at h ⊢
    rcases List.any_eq_true.mp h with ⟨p, hp, hpk⟩
    refine List.any_eq_true.mpr ⟨(k, v), List.mem_map.mpr ⟨p, hp, ?_⟩, by simp⟩
    by_cases hk : p.1 = k
    · rw [if_pos hk]
    · rw [if_neg hk] at hpk ⊢
      exact absurd hpk (by simp)
  · rw [if_neg h]
    unfold containsKey
    exact List.any_eq_true.mpr ⟨(k, v), List.mem_append_right _ (by simp), by simp⟩

theorem containsKey_insertA_of {α : Type} (m : List (String × α)) (k c : String) (v : α)
    (h : containsKey m c = true) : containsKey (insertA m k v) c = true := by
  unfold insertA
  by_cases hk : containsKey m k = true
  · rw [if_pos hk]
    unfold containsKey at h ⊢
    rcases List.any_eq_true.mp h with ⟨p, hp, hpc⟩
    have hpc2 : p.1 = c := by
      by_cases hx : p.1 = c
      · exact hx
      · rw [if_neg hx] at hpc; exact absurd hpc (by simp)
    by_cases hck : p.1 = k
    · refine List.any_eq_true.mpr ⟨(k, v), List.mem_map.mpr ⟨p, hp, by rw [if_pos hck]⟩, ?_⟩
      rw [← hck, hpc2]
      simp
    · refine List.any_eq_true.mpr ⟨p, List.mem_map.mpr ⟨p, hp, by rw [if_neg hck]⟩, ?_⟩
      rw [hpc2]
      simp
  · rw [if_neg hk]
    unfold containsKey at h ⊢
    rcases List.any_eq_true.mp h with ⟨p, hp, hpc⟩
    exact List.any_eq_true.mpr ⟨p, List.mem_append_left _ hp, hpc⟩

theorem lookupA_map_update {α : Type} (v : α) (k : String) :
    ∀ m : List (String × α), containsKey m k = true →
      lookupA (m.map (fun p => if p.1 = k then (k, v) else p)) k = some v
  | [], h => by simp [containsKey] at h
  | p :: rest, h => by
    by_cases hk : p.1 = k
    · rw [List.map_cons, if_pos hk]
      simp [lookupA]
    · rw [List.map_cons, if_neg hk]
      have h2 : containsKey rest k = true := by
        unfold containsKey at h
        rcases List.any_eq_true.mp h with ⟨q, hq, hqk⟩
        rcases List.mem_cons.mp hq with h3 | h3
        · subst h3
          rw [if_neg hk] at hqk
          exact absurd hqk (by simp)
        · exact List.any_eq_true.mpr ⟨q, h3, hqk⟩
      simp only [lookupA, if_neg hk]
      exact lookupA_map_update v k rest h2

theorem lookupA_append_new {α : Type} (v : α) (k : String) :
    ∀ m : List (String × α), containsKey m k = false →
      lookupA (m ++ [(k, v)]) k = some v
  | [], _ => by simp [lookupA]
  | p :: rest, h => by
    have hk : ¬ p.1 = k := by
      intro hx
      unfold containsKey at h
      rw [List.any_cons, if_pos hx] at h
      simp at h
    simp only [List.cons_append, lookupA, if_neg hk]
    have h2 : containsKey rest k = false := by
      unfold containsKey at h ⊢
      rw [List.any_cons] at h
      exact (Bool.or_eq_false_iff.mp h).2
    exact lookupA_append_new v k rest h2

theorem lookupA_insertA_self {α : Type} (m : List (String × α)) (k : String) (v : α) :
    lookupA (insertA m k v) k = some v := by
  unfold insertA
  by_cases h : containsKey m k = true
  · rw [if_pos h]
    exact lookupA_map_update v k m h
  · rw [if_neg h]
    exact lookupA_append_new v k m (Bool.not_eq_true _ ▸ Bool.of_not_eq_true h)

theorem keys_insertA {α : Type} (m : List (String × α)) (k c : String) (v : α)
    (hc : c ∉ m.map Prod.fst) (hck : c ≠ k) : c ∉ (insertA m k v).map Prod.fst := by
  unfold insertA
  by_cases h : containsKey m k = true
  · rw [if_pos h]
    intro hmem
    rcases List.mem_map.mp hmem with ⟨p, hp, hpc⟩
    rcases List.mem_map.mp hp with ⟨q, hq, hqp⟩
    by_cases hqk : q.1 = k
    · rw [if_pos hqk] at hqp
      rw [← hqp] at hpc
      exact hck hpc.symm
    · rw [if_neg hqk] at hqp
      rw [← hqp] at hpc
      exact hc (List.mem_map.mpr ⟨q, hq, hpc⟩)
  · rw [if_neg h]
    intro hmem
    rcases List.mem_map.mp hmem with ⟨p, hp, hpc⟩
    rcases List.mem_append.mp hp with h2 | h2
    · exact hc (List.mem_map.mpr ⟨p, h2, hpc⟩)
    · rcases List.mem_singleton.mp h2 with rfl
      exact hck hpc.symm

theorem keys_eraseKey {α : Type} (m : List (String × α)) (k c : String)
    (hc : c ∉ m.map Prod.fst) : c ∉ (eraseKey m k).map Prod.fst := by
  intro hmem
  rcases List.mem_map.mp hmem with ⟨p, hp, hpc⟩
  exact hc (List.mem_map.mpr ⟨p, List.mem_of_mem_filter hp, hpc⟩)

theorem self_not_mem_eraseKey {α : Type} (m : List (String × α)) (k : String) :
    k ∉ (eraseKey m k).map Prod.fst := by
  intro hmem
  rcases List.mem_map.mp hmem with ⟨p, hp, hpc⟩
  have := List.of_mem_filter hp
  rw [hpc] at this
  simp at this

/- Every token used in a network attempt comes from the snapshot the loop
   iterates over, attempts are appended on the right, and once
   payment_required is true only tokens with a truthy payment id are used. -/
theorem redeemLoop_attempts (env : Nat → IterEnv) (code : String) :
    ∀ (toks : List (String × Option String)) (k : Nat) (pr : Bool) (resp : Responses)
      (tok : Option String) (st : EngineState) (att : List String),
      ∃ ex : List String,
        (redeemLoop env code toks k pr resp tok st att).2.2 = att ++ ex ∧
        ∀ t2 ∈ ex, ∃ p2, (t2, p2) ∈ toks ∧ (pr = true → pyFalsy p2 = false)
  | [], _, _, _, _, _, att => ⟨[], by simp [redeemLoop], by simp⟩
  | (token, pay) :: rest, k, pr, resp, tok, st, att => by
    simp only [redeemLoop]
    by_cases h1 : (pr && pyFalsy pay) = true
    · rw [if_pos h1]
      rcases redeemLoop_attempts env code rest (k+1) pr resp (some token) st att with
        ⟨ex, hex, hmem⟩
      refine ⟨ex, hex, fun t2 ht2 => ?_⟩
      rcases hmem t2 ht2 with ⟨p2, hp2, hpr⟩
      exact ⟨p2, List.mem_cons_of_mem _ hp2, hpr⟩
    · rw [if_neg h1]
      have hfal : pr = true → pyFalsy pay = false := by
        intro hpr
        rw [hpr, Bool.true_and] at h1
        exact Bool.eq_false_iff.mpr h1
      by_cases h2 : (env k).tCheck - st.rate_limits.rate_timestamp ≤ st.rate_limits.rate_delay
      · rw [if_pos h2]
        exact ⟨[], by simp, by simp⟩
      · rw [if_neg h2]
        cases hR : handle_errors (env k).body with
        | ALREADY_CLAIMED =>
          simp only [reduceCtorEq, if_true, if_false, reduceIte]
          exact ⟨[token], rfl, fun t2 ht2 => by
            rcases List.mem_singleton.mp ht2 with rfl
            exact ⟨pay, List.mem_cons_self _ _, hfal⟩⟩
        | CLAIMED =>
          simp only [reduceCtorEq, if_true, if_false, reduceIte]
          exact ⟨[token], rfl, fun t2 ht2 => by
            rcases List.mem_singleton.mp ht2 with rfl
            exact ⟨pay, List.mem_cons_self _ _, hfal⟩⟩
        | INVALID_GIFT =>
          simp only [reduceCtorEq, if_true, if_false, reduceIte]
          exact ⟨[token], rfl, fun t2 ht2 => by
            rcases List.mem_singleton.mp ht2 with rfl
            exact ⟨pay, List.mem_cons_self _ _, hfal⟩⟩
        | RATE_LIMITED =>
          simp only [reduceCtorEq, if_true, if_false, reduceIte]
          exact ⟨[token], rfl, fun t2 ht2 => by
            rcases List.mem_singleton.mp ht2 with rfl
            exact ⟨pay, List.mem_cons_self _ _, hfal⟩⟩
        | NO_PAYMENT_SOURCE =>
          simp only [reduceCtorEq, if_true, if_false, reduceIte]
          rcases redeemLoop_attempts env code rest (k+1) true Responses.NO_PAYMENT_SOURCE
            (some token) _ (att ++ [token]) with ⟨ex, hex, hmem⟩
          refine ⟨[token] ++ ex, by rw [hex, List.append_assoc], fun t2 ht2 => ?_⟩
          rcases List.mem_append.mp ht2 with h | h
          · rcases List.mem_singleton.mp h with rfl
            exact ⟨pay, List.mem_cons_self _ _, hfal⟩
          · rcases hmem t2 h with ⟨p2, hp2, hpr2⟩
            exact ⟨p2, List.mem_cons_of_mem _ hp2, fun _ => hpr2 rfl⟩
        | ALREADY_PURCHASED =>
          simp only [reduceCtorEq, if_true, if_false, reduceIte]
          rcases redeemLoop_attempts env code rest (k+1) pr Responses.ALREADY_PURCHASED
            (some token) _ (att ++ [token]) with ⟨ex, hex, hmem⟩
          refine ⟨[token] ++ ex, by rw [hex, List.append_assoc], fun t2 ht2 => ?_⟩
          rcases List.mem_append.mp ht2 with h | h
          · rcases List.mem_singleton.mp h with rfl
            exact ⟨pay, List.mem_cons_self _ _, hfal⟩
          · rcases hmem t2 h with ⟨p2, hp2, hpr2⟩
            exact ⟨p2, List.mem_cons_of_mem _ hp2, hpr2⟩
        | NOT_VERIFIED =>
          simp only [reduceCtorEq, if_true, if_false, reduceIte]
          rcases redeemLoop_attempts env code rest (k+1) pr Responses.NOT_VERIFIED
            (some token) _ (att ++ [token]) with ⟨ex, hex, hmem⟩
          refine ⟨[token] ++ ex, by rw [hex, List.append_assoc], fun t2 ht2 => ?_⟩
          rcases List.mem_append.mp ht2 with h | h
          · rcases List.mem_singleton.mp h with rfl
            exact ⟨pay, List.mem_cons_self _ _, hfal⟩
          · rcases hmem t2 h with ⟨p2, hp2, hpr2⟩
            exact ⟨p2, List.mem_cons_of_mem _ hp2, hpr2⟩
        | ACCESS_DENIED =>
          simp only [reduceCtorEq, if_true, if_false, reduceIte]
          rcases redeemLoop_attempts env code rest (k+1) pr Responses.ACCESS_DENIED
            (some token) _ (att ++ [token]) with ⟨ex, hex, hmem⟩
          refine ⟨[token] ++ ex, by rw [hex, List.append_assoc], fun t2 ht2 => ?_⟩
          rcases List.mem_append.mp ht2 with h | h
          · rcases List.mem_singleton.mp h with rfl
            exact ⟨pay, List.mem_cons_self _ _, hfal⟩
          · rcases hmem t2 h with ⟨p2, hp2, hpr2⟩
            exact ⟨p2, List.mem_cons_of_mem _ hp2, hpr2⟩
        | IN_CACHE =>
          simp only [reduceCtorEq, if_true, if_false, reduceIte]
          rcases redeemLoop_attempts env code rest (k+1) pr Responses.IN_CACHE
            (some token) _ (att ++ [token]) with ⟨ex, hex, hmem⟩
          refine ⟨[token] ++ ex, by rw [hex, List.append_assoc], fun t2 ht2 => ?_⟩
          rcases List.mem_append.mp ht2 with h | h
          · rcases List.mem_singleton.mp h with rfl
            exact ⟨pay, List.mem_cons_self _ _, hfal⟩
          · rcases hmem t2 h with ⟨p2, hp2, hpr2⟩
            exact ⟨p2, List.mem_cons_of_mem _ hp2, hpr2⟩

/- Tokens are only ever removed by the loop: a key absent from the token dict
   stays absent. -/
theorem redeemLoop_tokens_mono (env : Nat → IterEnv) (code : String) (t0 : String) :
    ∀ (toks : List (String × Option String)) (k : Nat) (pr : Bool) (resp : Responses)
      (tok : Option String) (st : EngineState) (att : List String),
      t0 ∉ st.tokens.map Prod.fst →
      t0 ∉ ((redeemLoop env code toks k pr resp tok st att).2.1.tokens.map Prod.fst)
  | [], _, _, _, _, st, att => fun h => by simpa [redeemLoop] using h
  | (token, pay) :: rest, k, pr, resp, tok, st, att => fun h => by
    simp only [redeemLoop]
    by_cases h1 : (pr && pyFalsy pay) = true
    · rw [if_pos h1]
      exact redeemLoop_tokens_mono env code t0 rest (k+1) pr resp (some token) st att h
    · rw [if_neg h1]
      by_cases h2 : (env k).tCheck - st.rate_limits.rate_timestamp ≤ st.rate_limits.rate_delay
      · rw [if_pos h2]
        exact h
      · rw [if_neg h2]
        cases hR : handle_errors (env k).body with
        | ALREADY_CLAIMED => simp only [reduceCtorEq, reduceIte]; exact h
        | CLAIMED => simp only [reduceCtorEq, reduceIte]; exact h
        | INVALID_GIFT => simp only [reduceCtorEq, reduceIte]; exact h
        | RATE_LIMITED => simp only [reduceCtorEq, reduceIte]; exact h
        | NO_PAYMENT_SOURCE =>
          simp only [reduceCtorEq, reduceIte]
          exact redeemLoop_tokens_mono env code t0 rest (k+1) true _ (some token) _ _ h
        | ALREADY_PURCHASED =>
          simp only [reduceCtorEq, reduceIte]
          exact redeemLoop_tokens_mono env code t0 rest (k+1) pr _ (some token) _ _ h
        | NOT_VERIFIED =>
          simp only [reduceCtorEq, reduceIte]
          exact redeemLoop_tokens_mono env code t0 rest (k+1) pr _ (some token) _ _
            (keys_eraseKey _ token t0 h)
        | ACCESS_DENIED =>
          simp only [reduceCtorEq, reduceIte]
          exact redeemLoop_tokens_mono env code t0 rest (k+1) pr _ (some token) _ _ h
        | IN_CACHE =>
          simp only [reduceCtorEq, reduceIte]
          exact redeemLoop_tokens_mono env code t0 rest (k+1) pr _ (some token) _ _ h

/- A key present in the cache stays present through the loop. -/
theorem redeemLoop_cache_mono (env : Nat → IterEnv) (code c0 : String) :
    ∀ (toks : List (String × Option String)) (k : Nat) (pr : Bool) (resp : Responses)
      (tok : Option String) (st : EngineState) (att : List String),
      containsKey st.cache c0 = true →
      containsKey ((redeemLoop env code toks k pr resp tok st att).2.1.cache) c0 = true
  | [], _, _, _, _, st, att => fun h => by simpa [redeemLoop] using h
  | (token, pay) :: rest, k, pr, resp, tok, st, att => fun h => by
    simp only [redeemLoop]
    by_cases h1 : (pr && pyFalsy pay) = true
    · rw [if_pos h1]
      exact redeemLoop_cache_mono env code c0 rest (k+1) pr resp (some token) st att h
    · rw [if_neg h1]
      by_cases h2 : (env k).tCheck - st.rate_limits.rate_timestamp ≤ st.rate_limits.rate_delay
      · rw [if_pos h2]
        exact h
      · rw [if_neg h2]
        have h3 := containsKey_insertA_of st.cache code c0 (handle_errors (env k).body) h
        cases hR : handle_errors (env k).body with
        | ALREADY_CLAIMED => simp only [reduceCtorEq, reduceIte]; rw [hR] at h3; exact h3
        | CLAIMED => simp only [reduceCtorEq, reduceIte]; rw [hR] at h3; exact h3
        | INVALID_GIFT => simp only [reduceCtorEq, reduceIte]; rw [hR] at h3; exact h3
        | RATE_LIMITED => simp only [reduceCtorEq, reduceIte]; rw [hR] at h3; exact h3
        | NO_PAYMENT_SOURCE =>
          simp only [reduceCtorEq, reduceIte]
          exact redeemLoop_cache_mono env code c0 rest (k+1) true _ (some token) _ _
            (by rw [hR] at h3; exact h3)
        | ALREADY_PURCHASED =>
          simp only [reduceCtorEq, reduceIte]
          exact redeemLoop_cache_mono env code c0 rest (k+1) pr _ (some token) _ _
            (by rw [hR] at h3; exact h3)
        | NOT_VERIFIED =>
          simp only [reduceCtorEq, reduceIte]
          exact redeemLoop_cache_mono env code c0 rest (k+1) pr _ (some token) _ _
            (by rw [hR] at h3; exact h3)
        | ACCESS_DENIED =>
          simp only [reduceCtorEq, reduceIte]
          exact redeemLoop_cache_mono env code c0 rest (k+1) pr _ (some token) _ _
            (by rw [hR] at h3; exact h3)
        | IN_CACHE =>
          simp only [reduceCtorEq, reduceIte]
          exact redeemLoop_cache_mono env code c0 rest (k+1) pr _ (some token) _ _
            (by rw [hR] at h3; exact h3)

/- Cache hit (lines 111-112): immediate return. -/
theorem redeem_inCache_eq (env : Nat → IterEnv) (st : EngineState) (code : String)
    (hc : containsKey st.cache code = true) :
    redeem_code env st code = ((none, Responses.IN_CACHE), st, []) := by
  unfold redeem_code
  rw [if_pos hc]

/- Cache miss (lines 114-119): reserve the code, enter the loop. -/
theorem redeem_code_eq_loop (env : Nat → IterEnv) (st : EngineState) (code : String)
    (hc : containsKey st.cache code = false) :
    redeem_code env st code =
      redeemLoop env code st.tokens 0 false Responses.RATE_LIMITED none
        { st with cache := insertA st.cache code Responses.RATE_LIMITED } [] := by
  unfold redeem_code
  rw [hc]
  simp

/- Empty pool: the loop body never runs. -/
theorem redeem_empty_pool (env : Nat → IterEnv) (st : EngineState) (code : String)
    (hc : containsKey st.cache code = false) (ht : st.tokens = []) :
    redeem_code env st code = ((none, Responses.RATE_LIMITED),
      { st with cache := insertA st.cache code Responses.RATE_LIMITED }, []) := by
  rw [redeem_code_eq_loop env st code hc, ht]
  simp [redeemLoop]

/- Back-off active on the first token (lines 124-125): break before any
   attempt; the loop variable already holds the first token. -/
theorem redeem_blocked (env : Nat → IterEnv) (st : EngineState) (code t : String)
    (p : Option String) (rest : List (String × Option String))
    (hc : containsKey st.cache code = false)
    (ht : st.tokens = (t, p) :: rest)
    (hb : (env 0).tCheck - st.rate_limits.rate_timestamp ≤ st.rate_limits.rate_delay) :
    redeem_code env st code = ((some t, Responses.RATE_LIMITED),
      { st with cache := insertA st.cache code Responses.RATE_LIMITED }, []) := by
  rw [redeem_code_eq_loop env st code hc, ht]
  simp only [redeemLoop, Bool.false_and, Bool.false_eq_true, if_false]
  rw [if_pos hb]

/- First token attempt classifies RATE_LIMITED (lines 168-173): overwrite the
   rate-limit state from the response and break. -/
theorem redeem_first_rate_limited (env : Nat → IterEnv) (st : EngineState) (code t : String)
    (p : Option String) (rest : List (String × Option String))
    (hc : containsKey st.cache code = false)
    (ht : st.tokens = (t, p) :: rest)
    (hr : ¬ ((env 0).tCheck - st.rate_limits.rate_timestamp ≤ st.rate_limits.rate_delay))
    (hb : handle_errors (env 0).body = Responses.RATE_LIMITED) :
    redeem_code env st code =
      ((some t, Responses.RATE_LIMITED),
       { tokens := st.tokens,
         cache := insertA (insertA st.cache code Responses.RATE_LIMITED) code
           Responses.RATE_LIMITED,
         rate_limits := { rate_timestamp := (env 0).tRate, rate_delay := (env 0).retryAfter },
         data := st.data ++ [((env 0).tEnd - (env 0).tStart) * 1000] }, [t]) := by
  rw [redeem_code_eq_loop env st code hc, ht]
  simp only [redeemLoop, Bool.false_and, Bool.false_eq_true, if_false]
  rw [if_neg hr]
  rw [hb]
  simp [ht]

/- First token attempt classifies NOT_VERIFIED (lines 165-166): delete the
   token, fall through (RATE_LIMITED test is false), continue with the rest. -/
theorem redeem_first_not_verified (env : Nat → IterEnv) (st : EngineState) (code t : String)
    (p : Option String) (rest : List (String × Option String))
    (hc : containsKey st.cache code = false)
    (ht : st.tokens = (t, p) :: rest)
    (hr : ¬ ((env 0).tCheck - st.rate_limits.rate_timestamp ≤ st.rate_limits.rate_delay))
    (hb : handle_errors (env 0).body = Responses.NOT_VERIFIED) :
    redeem_code env st code =
      redeemLoop env code rest 1 false Responses.NOT_VERIFIED (some t)
        { tokens := eraseKey st.tokens t,
          cache := insertA (insertA st.cache code Responses.RATE_LIMITED) code
            Responses.NOT_VERIFIED,
          rate_limits := st.rate_limits,
          data := st.data ++ [((env 0).tEnd - (env 0).tStart) * 1000] } [t] := by
  rw [redeem_code_eq_loop env st code hc, ht]
  simp only [redeemLoop, Bool.false_and, Bool.false_eq_true, if_false]
  rw [if_neg hr]
  rw [hb]
  simp [ht]

/- First token attempt classifies NO_PAYMENT_SOURCE (lines 158-160): set
   payment_required and continue with the rest. -/
theorem redeem_first_no_payment (env : Nat → IterEnv) (st : EngineState) (code t : String)
    (p : Option String) (rest : List (String × Option String))
    (hc : containsKey st.cache code = false)
    (ht : st.tokens = (t, p) :: rest)
    (hr : ¬ ((env 0).tCheck - st.rate_limits.rate_timestamp ≤ st.rate_limits.rate_delay))
    (hb : handle_errors (env 0).body = Responses.NO_PAYMENT_SOURCE) :
    redeem_code env st code =
      redeemLoop env code rest 1 true Responses.NO_PAYMENT_SOURCE (some t)
        { tokens := st.tokens,
          cache := insertA (insertA st.cache code Responses.RATE_LIMITED) code
            Responses.NO_PAYMENT_SOURCE,
          rate_limits := st.rate_limits,
          data := st.data ++ [((env 0).tEnd - (env 0).tStart) * 1000] } [t] := by
  rw [redeem_code_eq_loop env st code hc, ht]
  simp only [redeemLoop, Bool.false_and, Bool.false_eq_true, if_false]
  rw [if_neg hr]
  rw [hb]
  simp [ht]

/- When the back-off test passes on the first token, that token is the first
   one used in a network attempt. -/
theorem redeem_first_attempt_head (env : Nat → IterEnv) (st : EngineState) (code t : String)
    (p : Option String) (rest : List (String × Option String))
    (hc : containsKey st.cache code = false)
    (ht : st.tokens = (t, p) :: rest)
    (hr : ¬ ((env 0).tCheck - st.rate_limits.rate_timestamp ≤ st.rate_limits.rate_delay)) :
    (redeem_code env st code).2.2.head? = some t := by
  rw [redeem_code_eq_loop env st code hc, ht]
  simp only [redeemLoop, Bool.false_and, Bool.false_eq_true, if_false]
  rw [if_neg hr]
  cases hR : handle_errors (env 0).body with
  | ALREADY_CLAIMED => simp
  | CLAIMED => simp
  | INVALID_GIFT => simp
  | RATE_LIMITED => simp
  | NO_PAYMENT_SOURCE =>
    simp only [reduceCtorEq, reduceIte]
    rcases redeemLoop_attempts env code rest 1 true Responses.NO_PAYMENT_SOURCE (some t) _
      [t] with ⟨ex, hex, _⟩
    simp only [zero_add, List.nil_append] at hex ⊢
    rw [hex]
    simp
  | ALREADY_PURCHASED =>
    simp only [reduceCtorEq, reduceIte]
    rcases redeemLoop_attempts env code rest 1 false Responses.ALREADY_PURCHASED (some t) _
      [t] with ⟨ex, hex, _⟩
    simp only [zero_add, List.nil_append] at hex ⊢
    rw [hex]
    simp
  | NOT_VERIFIED =>
    simp only [reduceCtorEq, reduceIte]
    rcases redeemLoop_attempts env code rest 1 false Responses.NOT_VERIFIED (some t) _
      [t] with ⟨ex, hex, _⟩
    simp only [zero_add, List.nil_append] at hex ⊢
    rw [hex]
    simp
  | ACCESS_DENIED =>
    simp only [reduceCtorEq, reduceIte]
    rcases redeemLoop_attempts env code rest 1 false Responses.ACCESS_DENIED (some t) _
      [t] with ⟨ex, hex, _⟩
    simp only [zero_add, List.nil_append] at hex ⊢
    rw [hex]
    simp
  | IN_CACHE =>
    simp only [reduceCtorEq, reduceIte]
    rcases redeemLoop_attempts env code rest 1 false Responses.IN_CACHE (some t) _
      [t] with ⟨ex, hex, _⟩
    simp only [zero_add, List.nil_append] at hex ⊢
    rw [hex]
    simp

/- Concrete fixtures used by witnesses and counterexamples. -/
def stBoundary : EngineState :=
  { tokens := [("t1", some ("p1"))], cache := [],
    rate_limits := { rate_timestamp := 0, rate_delay := 5 }, data := [] }

def envAt5 : Nat → IterEnv :=
  fun _ => { tCheck := 5, tStart := 5, tEnd := 5, body := [], retryAfter := 0, tRate := 5 }

def stBackoff : EngineState :=
  { tokens := [("t1", some ("p1"))], cache := [],
    rate_limits := { rate_timestamp := 100, rate_delay := 5 }, data := [] }

def envAt103 : Nat → IterEnv :=
  fun _ => { tCheck := 103, tStart := 103, tEnd := 103, body := [],
             retryAfter := 0, tRate := 103 }

def envNV : Nat → IterEnv :=
  fun _ => { tCheck := 100, tStart := 100, tEnd := 101,
             body := ("\x7b\"message\": \"You need to verify your account in order to perform this action.\", \"code\": 40002\x7d").toList,
             retryAfter := 0, tRate := 101 }

def envNPS : Nat → IterEnv :=
  fun _ => { tCheck := 100, tStart := 100, tEnd := 101,
             body := ("\x7b\"message\": \"Payment source required to redeem gift.\", \"code\": 50070\x7d").toList,
             retryAfter := 0, tRate := 101 }

def stNVTwo : EngineState :=
  { tokens := [("t1", some ("p1")), ("t2", some ("p2"))], cache := [],
    rate_limits := { rate_timestamp := 0, rate_delay := 0 }, data := [] }

def stEmptyPool : EngineState :=
  { tokens := [], cache := [],
    rate_limits := { rate_timestamp := 0, rate_delay := 0 }, data := [] }

/-- Claim C1: for every code already a key in the cache, redeem_code returns
(none, IN_CACHE) immediately, performs zero network attempts, and leaves the
whole engine state (cache, token pool, rate-limit state, latency samples)
unchanged. -/
theorem C1_redeem_inCache_no_network (env : Nat → IterEnv) (st : EngineState) (code : String)
    (hc : containsKey st.cache code = true) :
    redeem_code env st code = ((none, Responses.IN_CACHE), st, []) :=
  redeem_inCache_eq env st code hc

/-- Witness for C1 at a concrete cached code. -/
theorem C1_redeem_inCache_no_network_witness :
    redeem_code envQuiet stCached ("c") = ((none, Responses.IN_CACHE), stCached, []) :=
  C1_redeem_inCache_no_network envQuiet stCached ("c") (by decide)

/-- Claim C2 counterexample: with rate_timestamp 0, rate_delay 5 and the check
time at 5, the elapsed time equals the delay (is not strictly less), the code
is uncached and the pool nonempty, yet redeem_code performs no network
attempt (line 124 tests <=) and returns the pre-attempt RATE_LIMITED, where
the claim says attempts proceed once the elapsed time reaches the delay. -/
theorem C2_boundary_counterexample :
    (envAt5 0).tCheck - stBoundary.rate_limits.rate_timestamp = stBoundary.rate_limits.rate_delay
    ∧ containsKey stBoundary.cache ("c") = false
    ∧ stBoundary.tokens ≠ []
    ∧ (redeem_code envAt5 stBoundary ("c")).2.2 = []
    ∧ (redeem_code envAt5 stBoundary ("c")).1.2 = Responses.RATE_LIMITED := by
  refine ⟨by decide, by decide, by decide, by decide, by decide⟩

/-- Claim C2 (amended): the loop exits without attempting this or further
tokens exactly when the elapsed time since the rate-limit timestamp is less
than OR EQUAL to the stored delay, and an attempt on the first token proceeds
once the elapsed time strictly exceeds the delay; in particular a redeem call
issued while the back-off is still active (e.g. within 5 seconds of a
RateLimited outcome with retry_after 5) performs no network attempt and
returns the pre-attempt RATE_LIMITED outcome. -/
theorem C2_backoff_blocks_le (env : Nat → IterEnv) (st : EngineState) (code t : String)
    (p : Option String) (rest : List (String × Option String))
    (hc : containsKey st.cache code = false)
    (ht : st.tokens = (t, p) :: rest) :
    ((env 0).tCheck - st.rate_limits.rate_timestamp ≤ st.rate_limits.rate_delay →
      (redeem_code env st code).2.2 = [] ∧
      (redeem_code env st code).1.2 = Responses.RATE_LIMITED)
    ∧ (¬ ((env 0).tCheck - st.rate_limits.rate_timestamp ≤ st.rate_limits.rate_delay) →
      (redeem_code env st code).2.2.head? = some t) := by
  constructor
  · intro hb
    rw [redeem_blocked env st code t p rest hc ht hb]
    exact ⟨rfl, rfl⟩
  · intro hr
    exact redeem_first_attempt_head env st code t p rest hc ht hr

/-- Witness for C2: a call 3 seconds after a rate-limit of 5 seconds performs
no attempt and returns RATE_LIMITED. -/
theorem C2_backoff_blocks_le_witness :
    (redeem_code envAt103 stBackoff ("c")).2.2 = [] ∧
    (redeem_code envAt103 stBackoff ("c")).1.2 = Responses.RATE_LIMITED :=
  (C2_backoff_blocks_le envAt103 stBackoff ("c") ("t1") (some ("p1")) []
    (by decide) rfl).1 (by decide)

/-- Claim C3: handle_errors returns the outcome of the earliest entry of the
fixed table (insertion order INVALID_GIFT, ALREADY_CLAIMED, NO_PAYMENT_SOURCE,
ALREADY_PURCHASED, NOT_VERIFIED, RATE_LIMITED, ACCESS_DENIED) whose string is
a substring of the body, CLAIMED when none matches, and any body containing
the exact 10038 fragment classifies INVALID_GIFT regardless of surrounding
text. -/
theorem C3_handle_errors_first_match (body : List Char) :
    (∀ (before : List (List Char × Responses)) (e : List Char) (r : Responses)
        (after : List (List Char × Responses)),
        error_responses = before ++ (e, r) :: after →
        containsSub e body = true →
        (∀ q ∈ before, containsSub q.1 body = false) →
        handle_errors body = r)
    ∧ ((∀ q ∈ error_responses, containsSub q.1 body = false) →
        handle_errors body = Responses.CLAIMED)
    ∧ (∀ pre suf, handle_errors (pre ++ (frag10038 ++ suf)) = Responses.INVALID_GIFT) := by
  refine ⟨?_, ?_, ?_⟩
  · intro before e r after htbl he hb
    unfold handle_errors
    rw [htbl]
    exact handleLoop_first_match before e r after body he hb
  · intro h
    exact handleLoop_no_match error_responses body h
  · intro pre suf
    show handleLoop error_responses (pre ++ (frag10038 ++ suf)) = Responses.INVALID_GIFT
    unfold error_responses
    simp only [handleLoop, containsSub_append pre frag10038 suf, if_true]

/-- Witness for C3: the 10038 fragment surrounded by text classifies
INVALID_GIFT. -/
theorem C3_handle_errors_first_match_witness :
    handle_errors ((("xx ").toList) ++ (frag10038 ++ ((" yy").toList)))
      = Responses.INVALID_GIFT :=
  (C3_handle_errors_first_match []).2.2 (("xx ").toList) ((" yy").toList)

/-- Claim C4 counterexample: the input contains none of the three fixed link
prefixes as substrings, yet find_codes produces a match, and the produced
string keeps the pseudo-prefix and its slash (it is not a bare 16-24
word-character token), because the unescaped dot of the compiled regex
matched the character '0'; under the claim the result would be []. -/
theorem C4_wildcard_counterexample :
    containsSub (("discord.gift").toList) (("discord0gift/AbCdEf1234567890").toList) = false
    ∧ containsSub (("discordapp.com/gifts").toList)
        (("discord0gift/AbCdEf1234567890").toList) = false
    ∧ containsSub (("discord.com/gifts").toList)
        (("discord0gift/AbCdEf1234567890").toList) = false
    ∧ find_codes (("discord0gift/AbCdEf1234567890").toList)
        = [("discord0gift/AbCdEf1234567890").toList]
    ∧ ('/' ∈ (("discord0gift/AbCdEf1234567890").toList)) := by
  refine ⟨by decide, by decide, by decide, by decide, by decide⟩

/-- Claim C4 (amended): find_codes returns the substrings matched by one of
the three link patterns in which each '.' is a wildcard for any single
non-newline character, followed by '/' and 16-24 word characters, with every
literal occurrence of link + '/' removed from each match (a prefix matched
through the wildcard is NOT stripped), in order of first appearance and
without deduplication; the spec's two examples hold, and for every run of
16-24 word characters after the literal prefix 'discord.gift/' exactly the
bare run is returned. -/
theorem C4_find_codes_corrected :
    (find_codes (("check discord.gift/AbCdEf1234567890 out").toList)
        = [("AbCdEf1234567890").toList])
    ∧ (find_codes (("check discord.gift/AbCdEf123456789 out").toList) = [])
    ∧ (find_codes (("discord0gift/AbCdEf1234567890").toList)
        = [("discord0gift/AbCdEf1234567890").toList])
    ∧ (∀ run : List Char, (∀ c ∈ run, isWordChar c = true) →
        16 ≤ run.length → run.length ≤ 24 →
        find_codes (("discord.gift/").toList ++ run) = [run]) := by
  refine ⟨by decide, by decide, by decide, ?_⟩
  intro run hw h16 h24
  have h := find_codes_gift run hw h16
  rwa [List.take_of_length_le h24] at h

/-- Witness for C4: a 16 word-character run after the literal prefix is
returned bare. -/
theorem C4_find_codes_corrected_witness :
    find_codes (("discord.gift/").toList ++ (("AbCdEf1234567890").toList))
      = [("AbCdEf1234567890").toList] :=
  (C4_find_codes_corrected).2.2.2 (("AbCdEf1234567890").toList)
    (by decide) (by decide) (by decide)

/-- Claim C5: when an attempt's response classifies RATE_LIMITED, redeem
overwrites the rate-limit state with the current timestamp and the response
body's retry_after value as delay, records the outcome in the cache, and
stops iterating: exactly one attempt even though further tokens remain. -/
theorem C5_rate_limited_updates (env : Nat → IterEnv) (st : EngineState) (code t : String)
    (p : Option String) (rest : List (String × Option String))
    (hc : containsKey st.cache code = false)
    (ht : st.tokens = (t, p) :: rest)
    (hr : ¬ ((env 0).tCheck - st.rate_limits.rate_timestamp ≤ st.rate_limits.rate_delay))
    (hb : handle_errors (env 0).body = Responses.RATE_LIMITED) :
    redeem_code env st code =
      ((some t, Responses.RATE_LIMITED),
       { tokens := st.tokens,
         cache := insertA (insertA st.cache code Responses.RATE_LIMITED) code
           Responses.RATE_LIMITED,
         rate_limits := { rate_timestamp := (env 0).tRate, rate_delay := (env 0).retryAfter },
         data := st.data ++ [((env 0).tEnd - (env 0).tStart) * 1000] }, [t]) :=
  redeem_first_rate_limited env st code t p rest hc ht hr hb

/-- Witness for C5 at a concrete rate-limited body with retry_after 5. -/
theorem C5_rate_limited_updates_witness :
    redeem_code envRL5 stTwoTok ("c") =
      ((some ("t1"), Responses.RATE_LIMITED),
       { tokens := stTwoTok.tokens,
         cache := insertA (insertA stTwoTok.cache ("c") Responses.RATE_LIMITED) ("c")
           Responses.RATE_LIMITED,
         rate_limits := { rate_timestamp := (envRL5 0).tRate,
                          rate_delay := (envRL5 0).retryAfter },
         data := stTwoTok.data ++ [((envRL5 0).tEnd - (envRL5 0).tStart) * 1000] },
       [("t1")]) :=
  C5_rate_limited_updates envRL5 stTwoTok ("c") ("t1") (some ("p1")) [("t2", none)]
    (by decide) rfl (by decide) (by decide)

/-- Claim C6: a NOT_VERIFIED attempt removes the current token from the pool
and the loop continues with the next token of the same call (no break); the
removed token is absent from the pool after the call, and a token absent from
the pool is never used in a network attempt nor present in the pool after any
subsequent redeem call on any code. -/
theorem C6_not_verified_removes (env : Nat → IterEnv) (st : EngineState) (code t : String)
    (p : Option String) (rest : List (String × Option String))
    (hc : containsKey st.cache code = false)
    (ht : st.tokens = (t, p) :: rest)
    (hr : ¬ ((env 0).tCheck - st.rate_limits.rate_timestamp ≤ st.rate_limits.rate_delay))
    (hb : handle_errors (env 0).body = Responses.NOT_VERIFIED) :
    (redeem_code env st code =
      redeemLoop env code rest 1 false Responses.NOT_VERIFIED (some t)
        { tokens := eraseKey st.tokens t,
          cache := insertA (insertA st.cache code Responses.RATE_LIMITED) code
            Responses.NOT_VERIFIED,
          rate_limits := st.rate_limits,
          data := st.data ++ [((env 0).tEnd - (env 0).tStart) * 1000] } [t])
    ∧ t ∉ (((redeem_code env st code).2.1.tokens).map Prod.fst)
    ∧ (∀ (env2 : Nat → IterEnv) (st2 : EngineState) (code2 : String),
        t ∉ ((st2.tokens).map Prod.fst) →
        t ∉ (redeem_code env2 st2 code2).2.2 ∧
        t ∉ (((redeem_code env2 st2 code2).2.1.tokens).map Prod.fst)) := by
  have hstep := redeem_first_not_verified env st code t p rest hc ht hr hb
  refine ⟨hstep, ?_, ?_⟩
  · rw [hstep]
    exact redeemLoop_tokens_mono env code t rest 1 false _ (some t) _ [t]
      (self_not_mem_eraseKey st.tokens t)
  · intro env2 st2 code2 habs
    constructor
    · cases hc2 : containsKey st2.cache code2 with
      | true =>
        rw [redeem_inCache_eq env2 st2 code2 hc2]
        simp
      | false =>
        rw [redeem_code_eq_loop env2 st2 code2 hc2]
        rcases redeemLoop_attempts env2 code2 st2.tokens 0 false Responses.RATE_LIMITED
          none _ [] with ⟨ex, hex, hmem⟩
        rw [hex]
        simp only [List.nil_append]
        intro hmem2
        rcases hmem t hmem2 with ⟨p2, hp2, _⟩
        exact habs (List.mem_map.mpr ⟨(t, p2), hp2, rfl⟩)
    · cases hc2 : containsKey st2.cache code2 with
      | true =>
        rw [redeem_inCache_eq env2 st2 code2 hc2]
        exact habs
      | false =>
        rw [redeem_code_eq_loop env2 st2 code2 hc2]
        exact redeemLoop_tokens_mono env2 code2 t st2.tokens 0 false _ none _ [] habs

/-- Witness for C6: after a NOT_VERIFIED response on token t1, t1 is no
longer a key of the token pool. -/
theorem C6_not_verified_removes_witness :
    ("t1") ∉ ((((redeem_code envNV stNVTwo ("c")).2.1.tokens)).map Prod.fst) :=
  (C6_not_verified_removes envNV stNVTwo ("c") ("t1") (some ("p1")) [("t2", some ("p2"))]
    (by decide) rfl (by decide) (by decide)).2.1

/-- Claim C7: redeem inserts the code into the cache before any network
attempt (RATE_LIMITED placeholder, still visible when the pool is empty) and
the code stays cached, so a second sequential redeem call on the same code
returns (none, IN_CACHE) with no second network attempt, whatever the first
call's outcome (in particular after a first call that terminated Claimed). -/
theorem C7_cache_idempotent (env env2 : Nat → IterEnv) (st : EngineState) (code : String)
    (hc : containsKey st.cache code = false) :
    containsKey (redeem_code env st code).2.1.cache code = true
    ∧ (st.tokens = [] →
        lookupA (redeem_code env st code).2.1.cache code = some Responses.RATE_LIMITED)
    ∧ redeem_code env2 (redeem_code env st code).2.1 code
        = ((none, Responses.IN_CACHE), (redeem_code env st code).2.1, []) := by
  have h1 : containsKey (redeem_code env st code).2.1.cache code = true := by
    rw [redeem_code_eq_loop env st code hc]
    exact redeemLoop_cache_mono env code code st.tokens 0 false _ none _ []
      (containsKey_insertA_self st.cache code Responses.RATE_LIMITED)
  refine ⟨h1, ?_, redeem_inCache_eq env2 _ code h1⟩
  intro ht
  rw [redeem_empty_pool env st code hc ht]
  exact lookupA_insertA_self st.cache code Responses.RATE_LIMITED

/-- Witness for C7: the first call on "c" terminates Claimed (quiet body);
the second call returns IN_CACHE with no attempt and an unchanged state. -/
theorem C7_cache_idempotent_witness :
    redeem_code envQuiet (redeem_code envQuiet stTwoTok ("c")).2.1 ("c")
      = ((none, Responses.IN_CACHE), (redeem_code envQuiet stTwoTok ("c")).2.1, []) :=
  (C7_cache_idempotent envQuiet envQuiet stTwoTok ("c") (by decide)).2.2

/-- Claim C8: a NO_PAYMENT_SOURCE attempt sets payment_required and continues
with the next token of the same call; thereafter within this call every
network attempt uses either the first token or a token of the remaining
snapshot whose payment id is truthy — tokens with falsy (absent) payment ids
are skipped without a network request. -/
theorem C8_no_payment_skips (env : Nat → IterEnv) (st : EngineState) (code t : String)
    (p : Option String) (rest : List (String × Option String))
    (hc : containsKey st.cache code = false)
    (ht : st.tokens = (t, p) :: rest)
    (hr : ¬ ((env 0).tCheck - st.rate_limits.rate_timestamp ≤ st.rate_limits.rate_delay))
    (hb : handle_errors (env 0).body = Responses.NO_PAYMENT_SOURCE) :
    (redeem_code env st code =
      redeemLoop env code rest 1 true Responses.NO_PAYMENT_SOURCE (some t)
        { tokens := st.tokens,
          cache := insertA (insertA st.cache code Responses.RATE_LIMITED) code
            Responses.NO_PAYMENT_SOURCE,
          rate_limits := st.rate_limits,
          data := st.data ++ [((env 0).tEnd - (env 0).tStart) * 1000] } [t])
    ∧ (∀ t2 ∈ (redeem_code env st code).2.2,
        t2 = t ∨ ∃ p2, (t2, p2) ∈ rest ∧ pyFalsy p2 = false) := by
  have hstep := redeem_first_no_payment env st code t p rest hc ht hr hb
  refine ⟨hstep, ?_⟩
  intro t2 ht2
  rw [hstep] at ht2
  rcases redeemLoop_attempts env code rest 1 true Responses.NO_PAYMENT_SOURCE (some t) _ [t]
    with ⟨ex, hex, hmem⟩
  rw [hex] at ht2
  rcases List.mem_append.mp ht2 with h | h
  · exact Or.inl (List.mem_singleton.mp h)
  · rcases hmem t2 h with ⟨p2, hp2, hpr⟩
    exact Or.inr ⟨p2, hp2, hpr rfl⟩

/-- Witness for C8: after NO_PAYMENT_SOURCE on t1, the call continues into
the loop over the remaining snapshot with payment_required set. -/
theorem C8_no_payment_skips_witness :
    redeem_code envNPS stTwoTok ("c") =
      redeemLoop envNPS ("c") [("t2", none)] 1 true Responses.NO_PAYMENT_SOURCE (some ("t1"))
        { tokens := stTwoTok.tokens,
          cache := insertA (insertA stTwoTok.cache ("c") Responses.RATE_LIMITED) ("c")
            Responses.NO_PAYMENT_SOURCE,
          rate_limits := stTwoTok.rate_limits,
          data := stTwoTok.data ++ [((envNPS 0).tEnd - (envNPS 0).tStart) * 1000] }
        [("t1")] :=
  (C8_no_payment_skips envNPS stTwoTok ("c") ("t1") (some ("p1")) [("t2", none)]
    (by decide) rfl (by decide) (by decide)).1

/-- Claim C9 counterexample: with tokens t1 (payment id present) and t2
(payment id None) and a NO_PAYMENT_SOURCE response on t1, the only token used
in a network attempt is t1, yet redeem_code returns t2 as usedToken (the loop
variable last held t2, which was skipped, never attempted) — so the returned
pair is not (lastTokenAttempted, outcome). -/
theorem C9_last_token_counterexample :
    (redeem_code envNPS stTwoTok ("c")).2.2 = [("t1")]
    ∧ (redeem_code envNPS stTwoTok ("c")).1.1 = some ("t2") := by
  refine ⟨by decide, by decide⟩

/-- Claim C9 (amended): redeem returns (token, outcome) where token is the
last value the loop variable held — possibly a token that was never attempted
— and outcome the last classification; in particular, on an uncached code
with an empty pool the call returns (none, RATE_LIMITED) with no attempt, and
when back-off blocks at the first token the call returns that (unattempted)
token with the pre-attempt RATE_LIMITED outcome and no attempt. -/
theorem C9_return_value (env : Nat → IterEnv) (st : EngineState) (code : String)
    (hc : containsKey st.cache code = false) :
    (st.tokens = [] →
      redeem_code env st code = ((none, Responses.RATE_LIMITED),
        { st with cache := insertA st.cache code Responses.RATE_LIMITED }, []))
    ∧ (∀ (t : String) (p : Option String) (rest : List (String × Option String)),
        st.tokens = (t, p) :: rest →
        (env 0).tCheck - st.rate_limits.rate_timestamp ≤ st.rate_limits.rate_delay →
        redeem_code env st code = ((some t, Responses.RATE_LIMITED),
          { st with cache := insertA st.cache code Responses.RATE_LIMITED }, [])) :=
  ⟨fun ht => redeem_empty_pool env st code hc ht,
   fun t p rest ht hb => redeem_blocked env st code t p rest hc ht hb⟩

/-- Witness for C9: empty pool, uncached code: (none, RATE_LIMITED), no
attempt. -/
theorem C9_return_value_witness :
    redeem_code envQuiet stEmptyPool ("c") = ((none, Responses.RATE_LIMITED),
      { stEmptyPool with cache := insertA stEmptyPool.cache ("c") Responses.RATE_LIMITED },
      []) :=
  (C9_return_value envQuiet stEmptyPool ("c") (by decide)).1 rfl

/-- Claim C10: when a recognized link prefix is followed by '/' and a run of
25 or more word characters, find_codes still produces a code — the first 24
word characters of the run — because the pattern imposes no boundary after
the 16-24 segment; the returned code is a strict prefix of the path segment. -/
theorem C10_overlong_run_truncates (run : List Char)
    (hw : ∀ c ∈ run, isWordChar c = true) (hl : 25 ≤ run.length) :
    find_codes (("discord.gift/").toList ++ run) = [run.take 24]
    ∧ run.take 24 <+: run ∧ run.take 24 ≠ run := by
  refine ⟨find_codes_gift run hw (by omega), List.take_prefix 24 run, ?_⟩
  intro h
  have h2 := congrArg List.length h
  rw [List.length_take] at h2
  omega

/-- Witness for C10 on a run of 25 word characters. -/
theorem C10_overlong_run_truncates_witness :
    find_codes (("discord.gift/").toList ++ (("aaaaaaaaaaaaaaaaaaaaaaaaa").toList))
      = [(("aaaaaaaaaaaaaaaaaaaaaaaaa").toList).take 24]
    ∧ (("aaaaaaaaaaaaaaaaaaaaaaaaa").toList).take 24 <+: (("aaaaaaaaaaaaaaaaaaaaaaaaa").toList)
    ∧ (("aaaaaaaaaaaaaaaaaaaaaaaaa").toList).take 24 ≠ (("aaaaaaaaaaaaaaaaaaaaaaaaa").toList) :=
  C10_overlong_run_truncates (("aaaaaaaaaaaaaaaaaaaaaaaaa").toList) (by decide) (by decide)
